import Mathlib

/-!
Verification development for the STORM research pipeline of this repository
(`backend/agent/storm_research.py` together with the service layer in
`app/services/storm_service.py`, `app/services/agent_service.py` and the
storm branch of `app/api/routes/chat.py`).

Shallow embedding conventions:
* Language-model calls, web-search calls, human-gate responses and task-await
  outcomes are oracle parameters (`Except String _` for fallible calls, plain
  functions for total ones) — the surrounding control flow, parsing fallbacks,
  aggregation and event emission are translated from the source.
* Python dicts are insertion-ordered association lists (`dictInsert`).
* Wall-clock timestamps, durations and the event `metadata` payloads are
  elided from the event model; the event kind, step numbers and message texts
  are kept.
-/

namespace Storm

/-- `Section` of `storm_research.py` (subsections elided: no claim touches
them). -/
structure Section where
  section_title : String
  description : String
  deriving DecidableEq

/-- `Outline` of `storm_research.py`. -/
structure Outline where
  page_title : String
  sections : List Section
  deriving DecidableEq

/-- `Editor` of `storm_research.py`. -/
structure Editor where
  affiliation : String
  name : String
  role : String
  description : String
  deriving DecidableEq

/-- `SearchResult` of `storm_research.py`. -/
structure SearchResult where
  content : String
  url : String
  title : String
  deriving DecidableEq

/-- One message of an AutoGen team chat (`result.messages` items): only the
`source` and `content` fields are read by the interview runner. -/
structure Message where
  source : String
  content : String
  deriving DecidableEq

/-- A Python dict as an insertion-ordered association list:
`d[k] = v` overwrites in place when the key is present, else appends. -/
def dictInsert {α : Type} (m : List (String × α)) (k : String) (v : α) :
    List (String × α) :=
  match m with
  | [] => [(k, v)]
  | (k', v') :: rest =>
      if k' = k then (k, v) :: rest else (k', v') :: dictInsert rest k v

/-- Dict lookup (`d[k]` / `d.get(k)`). -/
def dictGet? {α : Type} (m : List (String × α)) (k : String) : Option α :=
  match m with
  | [] => none
  | (k', v) :: rest => if k' = k then some v else dictGet? rest k

/-!
## Editor-name sanitizer (`sanitize_name` inside `create_interview_agent`)

`re.sub(r'[^a-zA-Z0-9_-]', '', name)` keeps exactly the characters of the
class `[a-zA-Z0-9_-]`; when nothing survives, the fallback identifier is
`"editor_" + hashlib.md5(name.encode('utf-8')).hexdigest()[:8]`.
MD5 (RFC 1321) is embedded below over byte lists so the fallback is the real
hash of the UTF-8 encoding of the input.
-/

/-- Characters kept by `re.sub(r'[^a-zA-Z0-9_-]', '', name)`: the ASCII
letters and digits, underscore and hyphen. -/
def isIdentChar (c : Char) : Bool :=
  c.isAlpha || c.isDigit || c = '_' || c = '-'

/-- UTF-8 encoding of one code point (`str.encode("utf-8")`, per character). -/
def utf8EncodeChar (c : Char) : List Nat :=
  let n := c.toNat
  if n < 128 then [n]
  else if n < 2048 then [192 + n / 64, 128 + n % 64]
  else if n < 65536 then [224 + n / 4096, 128 + n / 64 % 64, 128 + n % 64]
  else [240 + n / 262144, 128 + n / 4096 % 64, 128 + n / 64 % 64, 128 + n % 64]

/-- `str.encode("utf-8")` as a byte list. -/
def utf8Encode (s : String) : List Nat :=
  (s.toList.map utf8EncodeChar).flatten

/-- Reduction to a 32-bit word. -/
def w32 (n : Nat) : Nat := n % 4294967296

/-- 32-bit left rotation (operand assumed `< 2^32`). -/
def rotl32 (x s : Nat) : Nat := w32 (x * 2 ^ s + x / 2 ^ (32 - s))

/-- MD5 sine-derived constants `K[0..63]` (RFC 1321). -/
def md5K : List Nat :=
  [0xd76aa478, 0xe8c7b756, 0x242070db, 0xc1bdceee,
   0xf57c0faf, 0x4787c62a, 0xa8304613, 0xfd469501,
   0x698098d8, 0x8b44f7af, 0xffff5bb1, 0x895cd7be,
   0x6b901122, 0xfd987193, 0xa679438e, 0x49b40821,
   0xf61e2562, 0xc040b340, 0x265e5a51, 0xe9b6c7aa,
   0xd62f105d, 0x02441453, 0xd8a1e681, 0xe7d3fbc8,
   0x21e1cde6, 0xc33707d6, 0xf4d50d87, 0x455a14ed,
   0xa9e3e905, 0xfcefa3f8, 0x676f02d9, 0x8d2a4c8a,
   0xfffa3942, 0x8771f681, 0x6d9d6122, 0xfde5380c,
   0xa4beea44, 0x4bdecfa9, 0xf6bb4b60, 0xbebfbc70,
   0x289b7ec6, 0xeaa127fa, 0xd4ef3085, 0x04881d05,
   0xd9d4d039, 0xe6db99e5, 0x1fa27cf8, 0xc4ac5665,
   0xf4292244, 0x432aff97, 0xab9423a7, 0xfc93a039,
   0x655b59c3, 0x8f0ccc92, 0xffeff47d, 0x85845dd1,
   0x6fa87e4f, 0xfe2ce6e0, 0xa3014314, 0x4e0811a1,
   0xf7537e82, 0xbd3af235, 0x2ad7d2bb, 0xeb86d391]

/-- MD5 per-round shift amounts `S[0..63]`. -/
def md5S : List Nat :=
  [7, 12, 17, 22, 7, 12, 17, 22, 7, 12, 17, 22, 7, 12, 17, 22,
   5, 9, 14, 20, 5, 9, 14, 20, 5, 9, 14, 20, 5, 9, 14, 20,
   4, 11, 16, 23, 4, 11, 16, 23, 4, 11, 16, 23, 4, 11, 16, 23,
   6, 10, 15, 21, 6, 10, 15, 21, 6, 10, 15, 21, 6, 10, 15, 21]

/-- MD5 nonlinear round functions F, G, H, I, chosen by round index. -/
def md5F (i b c d : Nat) : Nat :=
  if i < 16 then (b &&& c) ||| ((4294967295 ^^^ b) &&& d)
  else if i < 32 then (d &&& b) ||| ((4294967295 ^^^ d) &&& c)
  else if i < 48 then b ^^^ c ^^^ d
  else c ^^^ (b ||| (4294967295 ^^^ d))

/-- MD5 message-word index per round. -/
def md5G (i : Nat) : Nat :=
  if i < 16 then i
  else if i < 32 then (5 * i + 1) % 16
  else if i < 48 then (3 * i + 5) % 16
  else (7 * i) % 16

/-- MD5 padding: append `0x80`, zero-pad to 56 mod 64, append the bit length
as 8 little-endian bytes. -/
def md5Pad (msg : List Nat) : List Nat :=
  let zeros := (120 - (msg.length + 1) % 64) % 64
  msg ++ [128] ++ List.replicate zeros 0 ++
    (List.range 8).map (fun i => msg.length * 8 / 2 ^ (8 * i) % 256)

/-- One MD5 round step on the state `(a, b, c, d)`. -/
def md5Round (M : List Nat) (st : Nat × Nat × Nat × Nat) (i : Nat) :
    Nat × Nat × Nat × Nat :=
  let (a, b, c, d) := st
  let x := w32 (a + md5F i b c d + md5K.getD i 0 + M.getD (md5G i) 0)
  (d, w32 (b + rotl32 x (md5S.getD i 0)), b, c)

/-- Process one 64-byte chunk: 16 little-endian words, 64 rounds, add back. -/
def md5Chunk (st : Nat × Nat × Nat × Nat) (block : List Nat) :
    Nat × Nat × Nat × Nat :=
  let M := (List.range 16).map (fun j =>
    block.getD (4 * j) 0 + 256 * block.getD (4 * j + 1) 0 +
    65536 * block.getD (4 * j + 2) 0 + 16777216 * block.getD (4 * j + 3) 0)
  let (a, b, c, d) := (List.range 64).foldl (md5Round M) st
  (w32 (st.1 + a), w32 (st.2.1 + b), w32 (st.2.2.1 + c), w32 (st.2.2.2 + d))

/-- Split a byte list into 64-byte chunks. -/
def chunks64 (l : List Nat) : List (List Nat) :=
  if h : l = [] then []
  else l.take 64 :: chunks64 (l.drop 64)
termination_by l.length
decreasing_by
  simp only [List.length_drop]
  have : 0 < l.length := List.length_pos.mpr h
  omega

/-- A 32-bit word as 4 little-endian bytes. -/
def wordLEBytes (x : Nat) : List Nat :=
  [x % 256, x / 256 % 256, x / 65536 % 256, x / 16777216 % 256]

/-- `hashlib.md5(bytes).digest()` as a byte list. -/
def md5Bytes (msg : List Nat) : List Nat :=
  let st := (chunks64 (md5Pad msg)).foldl md5Chunk
    (0x67452301, 0xefcdab89, 0x98badcfe, 0x10325476)
  wordLEBytes st.1 ++ wordLEBytes st.2.1 ++ wordLEBytes st.2.2.1 ++
    wordLEBytes st.2.2.2

/-- Lowercase hex alphabet of `hexdigest()`. -/
def hexChars : List Char := "0123456789abcdef".toList

/-- One byte as two lowercase hex characters. -/
def byteHex (b : Nat) : List Char :=
  [hexChars.getD (b / 16 % 16) '0', hexChars.getD (b % 16) '0']

/-- `hashlib.md5(bytes).hexdigest()[:8]`. -/
def md5Hex8 (msg : List Nat) : String :=
  String.mk (((md5Bytes msg).map byteHex).flatten.take 8)

/-- `sanitize_name` of `create_interview_agent`: keep `[a-zA-Z0-9_-]`; when
nothing survives, fall back to `editor_` followed by the first 8 hex digits of
the MD5 of the UTF-8 encoded input. -/
def sanitize_name (name : String) : String :=
  let sanitized := String.mk (name.toList.filter isIdentChar)
  if sanitized = "" then "editor_" ++ md5Hex8 (utf8Encode name)
  else sanitized

/-!
## Stage 1 / 2 generators (`generate_initial_outline`, `generate_perspectives`)

In both, the model call (`team.run`) sits outside the try block and can
raise; only JSON parsing is protected and falls back deterministically.
The call oracle is `Except String (Option _)`: `.error` = the call raised,
`.ok none` = it returned but parsing failed, `.ok (some _)` = parsed value.
-/

/-- Default 3-section outline of the `except` branch of
`generate_initial_outline`. -/
def defaultOutline (topic : String) : Outline :=
  { page_title := topic
    sections :=
      [{ section_title := "개요", description := "주제에 대한 개요" },
       { section_title := "배경", description := "주제의 배경 정보" },
       { section_title := "주요 내용", description := "주제의 핵심 내용" }] }

/-- `generate_initial_outline`. -/
def generate_initial_outline (topic : String)
    (call : Except String (Option Outline)) : Except String Outline :=
  match call with
  | .error e => .error e
  | .ok (some outline) => .ok outline
  | .ok none => .ok (defaultOutline topic)

/-- `base_names` of `generate_perspectives`. -/
def base_names : List String :=
  ["Academic_Researcher", "Industry_Expert", "Technical_Specialist",
   "Policy_Analyst", "User_Advocate"]

/-- `base_roles` of `generate_perspectives`. -/
def base_roles : List String :=
  ["연구자", "산업 전문가", "기술 전문가", "정책 분석가", "사용자 옹호자"]

/-- `base_affiliations` of `generate_perspectives`. -/
def base_affiliations : List String :=
  ["학술기관", "산업계", "기술기관", "정책기관", "사용자 커뮤니티"]

/-- The deterministic fallback persona appended at index `idx`
(`base_*[idx % len(base_*)]`, all three tables have length 5). -/
def fallbackEditor (idx : Nat) : Editor :=
  { affiliation := base_affiliations.getD (idx % 5) ""
    name := base_names.getD (idx % 5) ""
    role := base_roles.getD (idx % 5) ""
    description := base_roles.getD (idx % 5) "" ++ " 관점에서 주제를 분석" }

/-- The `while len(editors) < target_count` padding loop: append
`fallbackEditor (len editors)` until the target length is reached. -/
def padEditors (editors : List Editor) (target : Nat) : List Editor :=
  if editors.length < target then
    padEditors (editors ++ [fallbackEditor editors.length]) target
  else editors
termination_by target - editors.length
decreasing_by
  simp only [List.length_append, List.length_cons, List.length_nil]
  omega

/-- `generate_perspectives`: target is `editor_count` or default 3; a parsed
list is truncated when too long and padded when too short; a parse failure
yields exactly `target_count` fallback personas. -/
def generate_perspectives (editor_count : Option Nat)
    (call : Except String (Option (List Editor))) : Except String (List Editor) :=
  let target_count := editor_count.getD 3
  match call with
  | .error e => .error e
  | .ok none => .ok ((List.range target_count).map fallbackEditor)
  | .ok (some editors) =>
      .ok (if editors.length > target_count then editors.take target_count
           else padEditors editors target_count)

/-!
## Interview runner (`conduct_single_interview`) and fan-out
(`conduct_all_interviews_parallel`)
-/

/-- `MaxMessageTermination(max_messages=n)` (external AutoGen condition):
the round-robin chat stops once `n` messages exist, so `team.run` returns at
most `n` messages. Modelled as truncation of the raw message stream. -/
def teamRunCapped (maxMessages : Nat) (stream : List Message) : List Message :=
  stream.take maxMessages

/-- `"SEARCH:" in message.content` (Python substring test). -/
def hasSearchDirective (content : String) : Bool :=
  (content.splitOn "SEARCH:").length ≥ 2

/-- `message.content.split("SEARCH:")[1].strip()`. -/
def searchQuery (content : String) : String :=
  ((content.splitOn "SEARCH:").getD 1 "").trim

/-- The transcript entry injected for a search directive: top 3 results,
each condensed to `[url] content`, joined by newlines, behind the
`검색 결과: ` prefix. -/
def searchResultEntry (results : List SearchResult) : String :=
  "검색 결과: " ++ String.intercalate "\n"
    ((results.take 3).map (fun r => "[" ++ r.url ++ "] " ++ r.content))

/-- One transcript entry per chat message: a search directive is replaced by
the injected search-result entry, any other message becomes
`source: content`. -/
def transcriptEntry (search : String → List SearchResult) (m : Message) : String :=
  if hasSearchDirective m.content then
    searchResultEntry (search (searchQuery m.content))
  else m.source ++ ": " ++ m.content

/-- The single-entry failure transcript of the `except` branch of
`conduct_single_interview`. -/
def interviewFailureEntry (name : String) : String :=
  "편집자 " ++ name ++ ": 인터뷰 중 오류가 발생했습니다."

/-- `conduct_single_interview`: the whole body runs inside one try/except, so
no exception escapes; the chat is capped at 19 messages by
`MaxMessageTermination(max_messages=19)` (`max_turns=20` is never read).
`run` is the outcome of `team.run`: `.error` = anything in the body raised. -/
def conduct_single_interview (editor : Editor)
    (run : Except String (List Message))
    (search : String → List SearchResult) : List String :=
  match run with
  | .error _ => [interviewFailureEntry editor.name]
  | .ok stream => (teamRunCapped 19 stream).map (transcriptEntry search)

/-- `conduct_all_interviews_parallel`: one task per editor, results collected
into `interview_results[editor_name]` as each `await` resolves.
`conduct_single_interview` is total, so every unit contributes an entry and
no exception escapes the batch. -/
def conduct_all_interviews_parallel (editors : List Editor)
    (run : Editor → Except String (List Message))
    (search : String → List SearchResult) : List (String × List String) :=
  editors.foldl
    (fun acc editor =>
      dictInsert acc editor.name (conduct_single_interview editor (run editor) search))
    []

/-!
## Fan-in progress reporting (`conduct_all_interviews_parallel` and
`write_sections_parallel` await loops, C6)

Each unit is modelled by its identity and its completion time. The source
loops `for name, task in tasks: result = await task; completed_count += 1;
log_parallel_progress(...)`: tasks are awaited in submission order, and the
k-th report fires only when the k-th submitted task has resolved.
-/

/-- One `log_parallel_progress(task_name, completed, total)` call. -/
structure ProgressReport where
  identity : String
  completed : Nat
  total : Nat
  deriving DecidableEq

/-- The await loop over `(identity, completion-time)` units: emission follows
list (submission) order, ignoring completion times. -/
def awaitLoop (total : Nat) : List (String × Nat) → Nat → List ProgressReport
  | [], _ => []
  | (name, _) :: rest, completed =>
      { identity := name, completed := completed + 1, total := total } ::
        awaitLoop total rest (completed + 1)

/-- All progress reports of one fan-in batch, in emission order. -/
def fanInReports (units : List (String × Nat)) : List ProgressReport :=
  awaitLoop units.length units 0

/-- Stable insertion by completion time. -/
def insertByTime (u : String × Nat) : List (String × Nat) → List (String × Nat)
  | [] => [u]
  | v :: rest => if u.2 ≤ v.2 then u :: v :: rest else v :: insertByTime u rest

/-- The order in which units actually complete: stable sort by completion
time (ties resolved by submission order). -/
def completionOrder (units : List (String × Nat)) : List String :=
  (units.foldr insertByTime []).map Prod.fst

/-!
## Human Interaction Gate (`request_human_interaction` with the web callback,
resolved by `AgentService._wait_for_storm_interaction_response`)
-/

/-- A gate response `{action, feedback}`. -/
structure HumanResponse where
  action : String
  feedback : Option String
  deriving DecidableEq

/-- The value returned when the wait window elapses with no response. -/
def timeoutAutoApprove : HumanResponse :=
  { action := "approve", feedback := some "타임아웃으로 인한 자동 승인" }

/-- `_wait_for_storm_interaction_response(session_id, interaction_id,
timeout=300)`: polls the pending interaction once per second; `responses t`
is the response visible at the poll in second `t`. When no response arrives
within `timeout` polls the loop falls through to the auto-approval. -/
def wait_for_storm_interaction_response
    (responses : Nat → Option HumanResponse) : Nat → Nat → HumanResponse
  | _, 0 => timeoutAutoApprove
  | t, fuel + 1 =>
      match responses t with
      | some r => r
      | none => wait_for_storm_interaction_response responses (t + 1) fuel

/-!
## Human-loop checkpoints inside `run_parallel_storm_research`
-/

/-- Python truthiness of `response.get("feedback")` (absent, `None` and the
empty string are falsy). -/
def feedbackTruthy : Option String → Bool
  | none => false
  | some s => s ≠ ""

/-- Editor-review checkpoint: on `reject` with truthy feedback the editors
are regenerated by one further `generate_perspectives(topic)` call — note
that the regeneration call passes no `editor_count` (target defaults to 3).
The gate oracle is `Except` because the web callback can raise. -/
def editorCheckpoint (enable : Bool) (editors : List Editor)
    (gate : Except String HumanResponse)
    (regenCall : Except String (Option (List Editor))) :
    Except String (List Editor) :=
  if enable then
    match gate with
    | .error e => .error e
    | .ok resp =>
        if resp.action = "reject" && feedbackTruthy resp.feedback then
          generate_perspectives none regenCall
        else .ok editors
  else .ok editors

/-- `refine_outline` (stage 4): the model call can raise; a parse failure
keeps the existing outline. -/
def refine_outline (initial : Outline)
    (call : Except String (Option Outline)) : Except String Outline :=
  match call with
  | .error e => .error e
  | .ok (some outline) => .ok outline
  | .ok none => .ok initial

/-- Outline-review checkpoint: on `reject` with truthy feedback the outline
is refined once more by a second `refine_outline` call. -/
def outlineCheckpoint (enable : Bool) (outline : Outline)
    (gate : Except String HumanResponse)
    (regenCall : Except String (Option Outline)) : Except String Outline :=
  if enable then
    match gate with
    | .error e => .error e
    | .ok resp =>
        if resp.action = "reject" && feedbackTruthy resp.feedback then
          refine_outline outline regenCall
        else .ok outline
  else .ok outline

/-- Section-review checkpoint: the gate is invoked, but the `reject` branch
is `pass` — every response leaves the sections untouched. -/
def sectionCheckpoint (enable : Bool) (sections : List (String × String))
    (gate : Except String HumanResponse) :
    Except String (List (String × String)) :=
  if enable then
    match gate with
    | .error e => .error e
    | .ok _ => .ok sections
  else .ok sections

/-!
## Stage 5 (`write_single_section`, `write_sections_parallel`)
-/

/-- `write_single_section`: its body is one try/except returning an error
string on failure, so it never raises. -/
def write_single_section (sec : Section) (call : Except String String) : String :=
  match call with
  | .ok content => content
  | .error e =>
      "# " ++ sec.section_title ++ "\n\n섹션 작성 중 오류가 발생했습니다: " ++ e

/-- The placeholder built in the `except` branch of the await loop of
`write_sections_parallel`. It reads `section.description` from the loop
variable of the *submission* loop, which — that loop having completed —
holds the last section of the outline, not the section whose task failed. -/
def staleSectionFallback (title : String) (lastSec : Section) : String :=
  "# " ++ title ++ "\n\n" ++ lastSec.description ++
    "\n\n이 섹션에 대한 자세한 내용이 여기에 들어갑니다."

/-- The value stored for one section task. `call sec` is the outcome of
`write_single_section` (total); `awaitFail sec = some e` models the task
failing at the `await` boundary instead of returning, which routes into the
stale-variable fallback. The `getLastD sec` default is never reached: the
await loop only runs for members of `outline.sections`, which is then
non-empty. -/
def sectionTaskResult (outline : Outline) (call : Section → Except String String)
    (awaitFail : Section → Option String) (sec : Section) : String :=
  match awaitFail sec with
  | some _ => staleSectionFallback sec.section_title (outline.sections.getLastD sec)
  | none => write_single_section sec (call sec)

/-- `write_sections_parallel`: one task per section, results collected into
`sections_content[section_title]`. (The outermost try/except that rebuilds
every section from its correct description is reachable only through
failures outside both per-task handlers and is not modelled.) -/
def write_sections_parallel (outline : Outline)
    (call : Section → Except String String)
    (awaitFail : Section → Option String) : List (String × String) :=
  outline.sections.foldl
    (fun acc sec =>
      dictInsert acc sec.section_title (sectionTaskResult outline call awaitFail sec))
    []

/-!
## Stage 6 and the orchestrator (`write_final_article`,
`run_parallel_storm_research`, `StormService.process_storm_interactive`)
-/

/-- `write_final_article`: wrapped in try/except; on failure the sections are
assembled into a default-format article. -/
def write_final_article (topic : String) (outline : Outline)
    (sections : List (String × String)) (call : Except String String) : String :=
  match call with
  | .ok article => article
  | .error _ =>
      "# " ++ topic ++ "\n\n" ++ outline.page_title ++
        "에 대한 상세한 연구 결과입니다.\n\n" ++
        String.join (sections.map (fun p => "## " ++ p.1 ++ "\n\n" ++ p.2 ++ "\n\n")) ++
        "## 참고 문헌\n\n이 문서는 전문가 인터뷰와 연구를 바탕으로 작성되었습니다.\n"

/-- `StormResearchState`. -/
structure StormResearchState where
  topic : String
  outline : Option Outline
  editors : List Editor
  interview_results : List (String × List String)
  sections : List (String × String)
  final_article : String
  deriving DecidableEq

/-- The events yielded by the pipeline generator (timestamps and metadata
elided, kinds and payloads kept; `processing_time` elided as wall clock). -/
inductive StormEvent where
  | log (level : String) (message : String)
  | storm_progress (step : Nat) (total_steps : Nat) (message : String)
  | storm_complete (content : String)
  | storm_error (content : String)
  deriving DecidableEq

/-- The two terminal event kinds. -/
def isTerminal : StormEvent → Bool
  | .storm_complete _ => true
  | .storm_error _ => true
  | _ => false

/-- `step_names`. -/
def step_names : Nat → String
  | 1 => "1단계: 초기 아웃라인 생성"
  | 2 => "2단계: 편집자 관점 생성"
  | 3 => "3단계: 병렬 인터뷰 진행"
  | 4 => "4단계: 아웃라인 개선"
  | 5 => "5단계: 병렬 섹션 작성"
  | 6 => "6단계: 최종 아티클 작성"
  | _ => ""

/-- Python `editor_count or 3` (`None` and `0` are falsy). -/
def editorCountOr3 : Option Nat → Nat
  | none => 3
  | some n => if n = 0 then 3 else n

/-- All external outcomes one pipeline run can observe. -/
structure RunOracles where
  outlineCall : Except String (Option Outline)
  perspectivesCall : Except String (Option (List Editor))
  editorGate : Except String HumanResponse
  editorRegenCall : Except String (Option (List Editor))
  interviewRun : Editor → Except String (List Message)
  search : String → List SearchResult
  refineCall : Except String (Option Outline)
  outlineGate : Except String HumanResponse
  outlineRegenCall : Except String (Option Outline)
  sectionCall : Section → Except String String
  sectionAwaitFail : Section → Option String
  sectionGate : Except String HumanResponse
  finalCall : Except String String

/-- Outcome of one generator run: the events yielded before the generator
either finished (`raised = none`) or re-raised a stage exception to its
consumer (`raised = some e` — the events already yielded stand, and nothing
further is yielded). -/
structure RunResult where
  events : List StormEvent
  raised : Option String
  state : StormResearchState
  deriving DecidableEq

/-- `run_parallel_storm_research(topic, enable_human_loop, editor_count)`.
Faithful points worth noting: the generator itself never yields
`storm_error`; the interview stage consumes the *local* `editors` list, so
an editor regeneration at the checkpoint only updates `state.editors`; the
stage-4 refinement starts from the local `initial_outline`. -/
def run_parallel_storm_research (topic : String) (enable_human_loop : Bool)
    (editor_count : Option Nat) (o : RunOracles) : RunResult :=
  let st0 : StormResearchState :=
    { topic := topic, outline := none, editors := [], interview_results := []
      sections := [], final_article := "" }
  let evS1 : List StormEvent :=
    [.log "info" ("🌩️ STORM 연구 시작: " ++ topic),
     .log "info" "📝 1단계: 초기 아웃라인 생성 중..."]
  match generate_initial_outline topic o.outlineCall with
  | .error e => { events := evS1, raised := some e, state := st0 }
  | .ok initial_outline =>
    let st1 := { st0 with outline := some initial_outline }
    let evS2 := evS1 ++
      [.log "success" ("✅ 1단계 완료: 제목: " ++ initial_outline.page_title ++
          ", 섹션: " ++ toString initial_outline.sections.length ++ "개"),
       .storm_progress 1 6 (step_names 1 ++ " 완료"),
       .log "info" ("👥 2단계: 편집자 관점 생성 중... (목표: " ++
          toString (editorCountOr3 editor_count) ++ "명)")]
    match generate_perspectives editor_count o.perspectivesCall with
    | .error e => { events := evS2, raised := some e, state := st1 }
    | .ok editors =>
      let st2 := { st1 with editors := editors }
      let evS3 := evS2 ++
        [.log "success" ("✅ 2단계 완료: 편집자 " ++ toString editors.length ++ "명 생성"),
         .storm_progress 2 6 (step_names 2 ++ " 완료")]
      match editorCheckpoint enable_human_loop editors o.editorGate o.editorRegenCall with
      | .error e => { events := evS3, raised := some e, state := st2 }
      | .ok stateEditors =>
        let st2' := { st2 with editors := stateEditors }
        let evS4 := evS3 ++
          [.log "info" ("🎤 3단계: 병렬 인터뷰 진행 중... (" ++
              toString editors.length ++ "명의 편집자와 전문가 인터뷰)")]
        let interview_results := conduct_all_interviews_parallel editors o.interviewRun o.search
        let st3 := { st2' with interview_results := interview_results }
        let evS5 := evS4 ++
          [.log "success" ("✅ 3단계 완료: 편집자 " ++
              toString interview_results.length ++ "명 인터뷰 완료"),
           .storm_progress 3 6 (step_names 3 ++ " 완료"),
           .log "info" "🔧 4단계: 인터뷰 결과를 바탕으로 아웃라인 개선 중..."]
        match refine_outline initial_outline o.refineCall with
        | .error e => { events := evS5, raised := some e, state := st3 }
        | .ok refined_outline =>
          let st4 := { st3 with outline := some refined_outline }
          let evS6 := evS5 ++
            [.log "success" "✅ 4단계 완료: 아웃라인 개선 완료",
             .storm_progress 4 6 (step_names 4 ++ " 완료")]
          match outlineCheckpoint enable_human_loop refined_outline
              o.outlineGate o.outlineRegenCall with
          | .error e => { events := evS6, raised := some e, state := st4 }
          | .ok outline5 =>
            let st4' := { st4 with outline := some outline5 }
            let evS7 := evS6 ++
              [.log "info" ("✍️ 5단계: 병렬 섹션 작성 중... (" ++
                  toString outline5.sections.length ++ "개 섹션)")]
            let sections := write_sections_parallel outline5 o.sectionCall o.sectionAwaitFail
            let st5 := { st4' with sections := sections }
            let evS8 := evS7 ++
              [.log "success" ("✅ 5단계 완료: 섹션 " ++
                  toString sections.length ++ "개 작성 완료"),
               .storm_progress 5 6 (step_names 5 ++ " 완료")]
            match sectionCheckpoint enable_human_loop sections o.sectionGate with
            | .error e => { events := evS8, raised := some e, state := st5 }
            | .ok sections' =>
              let evS9 := evS8 ++
                [.log "info" "📄 6단계: 최종 아티클 통합 및 작성 중..."]
              let final_article := write_final_article topic outline5 sections' o.finalCall
              let st6 := { st5 with final_article := final_article }
              { events := evS9 ++
                  [.log "success" "✅ 6단계 완료: 최종 아티클 작성 완료",
                   .storm_progress 6 6 (step_names 6 ++ " 완료"),
                   .log "success" "🎉 STORM 연구 완료!",
                   .storm_complete final_article]
                raised := none, state := st6 }

/-- `StormService.process_storm_interactive`: forwards every event of the
generator and turns a raised exception into one trailing `storm_error`
event. -/
def process_storm_interactive (topic : String) (editor_count : Option Nat)
    (o : RunOracles) : List StormEvent :=
  let r := run_parallel_storm_research topic true editor_count o
  match r.raised with
  | none => r.events
  | some e => r.events ++ [.storm_error ("❌ STORM 연구 스트림 오류: " ++ e)]

/-!
## Service-level `editor_count` handling (C7)
-/

/-- `StormService.process_storm_research` / `process_storm_interactive`:
`editor_count = config.editor_count if config else 3` followed by
`editor_count = min(editor_count, 8)`. `StormConfig.editor_count : int = 3`
carries no range validator, so any integer can reach this point. -/
def service_editor_count (config_editor_count : Option Int) : Int :=
  min (config_editor_count.getD 3) 8

/-- The storm branch of `chat.py` `generate_response`:
`editor_count = storm_config.get("editor_count", 1)` — no clamping at all
before the value is handed to `run_parallel_storm_research`. -/
def chat_editor_count (storm_config_editor_count : Option Int) : Int :=
  storm_config_editor_count.getD 1

/-- A concrete run in which the stage-1 model call (`team.run` inside
`generate_initial_outline`, outside its try block) raises and every other
collaborator behaves: used to exercise the generator's raise path. -/
def outlineFailureOracles : RunOracles :=
  { outlineCall := Except.error "모델 호출 실패"
    perspectivesCall := Except.ok none
    editorGate := Except.ok { action := "approve", feedback := none }
    editorRegenCall := Except.ok none
    interviewRun := fun _ => Except.ok []
    search := fun _ => []
    refineCall := Except.ok none
    outlineGate := Except.ok { action := "approve", feedback := none }
    outlineRegenCall := Except.ok none
    sectionCall := fun _ => Except.ok "본문"
    sectionAwaitFail := fun _ => none
    sectionGate := Except.ok { action := "approve", feedback := none }
    finalCall := Except.ok "최종 아티클" }

/-!
# Theorems

Association-list (Python dict) lemmas, then the claim theorems.
-/

theorem dictGet?_dictInsert_self {α : Type} (m : List (String × α)) (k : String) (v : α) :
    dictGet? (dictInsert m k v) k = some v := by
  induction m with
  | nil => simp [dictInsert, dictGet?]
  | cons p rest ih =>
      obtain ⟨k', v'⟩ := p
      by_cases h : k' = k <;> simp [dictInsert, dictGet?, h, ih]

theorem dictGet?_dictInsert_ne {α : Type} (m : List (String × α)) (k : String) (v : α)
    (k' : String) (h : k' ≠ k) : dictGet? (dictInsert m k v) k' = dictGet? m k' := by
  induction m with
  | nil => simp [dictInsert, dictGet?, h, Ne.symm h]
  | cons p rest ih =>
      obtain ⟨k0, v0⟩ := p
      by_cases h0 : k0 = k
      · subst h0
        simp [dictInsert, dictGet?, h, Ne.symm h]
      · by_cases h1 : k0 = k' <;> simp [dictInsert, dictGet?, h, h0, h1, ih]

theorem keys_dictInsert_not_mem {α : Type} (m : List (String × α)) (k : String) (v : α)
    (h : k ∉ m.map Prod.fst) :
    (dictInsert m k v).map Prod.fst = m.map Prod.fst ++ [k] := by
  induction m with
  | nil => simp [dictInsert]
  | cons p rest ih =>
      obtain ⟨k0, v0⟩ := p
      simp only [List.map_cons, List.mem_cons] at h
      push_neg at h
      simp [dictInsert, Ne.symm h.1, ih h.2]

theorem length_dictInsert_not_mem {α : Type} (m : List (String × α)) (k : String) (v : α)
    (h : k ∉ m.map Prod.fst) : (dictInsert m k v).length = m.length + 1 := by
  have := keys_dictInsert_not_mem m k v h
  have hlen := congrArg List.length this
  simpa using hlen

/-- The fan-in aggregation pattern shared by stages 3 and 5: folding
`dictInsert` over units with pairwise-distinct keys yields one entry per
unit, each holding that unit's own result. -/
theorem foldl_dictInsert_spec {β α : Type} (key : β → String) (val : β → α) :
    ∀ (l : List β) (acc : List (String × α)),
      (l.map key).Nodup → (∀ b ∈ l, key b ∉ acc.map Prod.fst) →
      ((l.foldl (fun m b => dictInsert m (key b) (val b)) acc).length
          = acc.length + l.length)
      ∧ (∀ k, k ∉ l.map key →
          dictGet? (l.foldl (fun m b => dictInsert m (key b) (val b)) acc) k
            = dictGet? acc k)
      ∧ (∀ b ∈ l,
          dictGet? (l.foldl (fun m b => dictInsert m (key b) (val b)) acc) (key b)
            = some (val b)) := by
  intro l
  induction l with
  | nil => intro acc _ _; exact ⟨by simp, fun k _ => rfl, by simp⟩
  | cons b0 rest ih =>
      intro acc hnd hacc
      have hnd' : (rest.map key).Nodup := (List.nodup_cons.mp (by simpa using hnd)).2
      have hb0 : key b0 ∉ rest.map key := (List.nodup_cons.mp (by simpa using hnd)).1
      have hb0acc : key b0 ∉ acc.map Prod.fst := hacc b0 (by simp)
      have hacc' : ∀ b ∈ rest, key b ∉ (dictInsert acc (key b0) (val b0)).map Prod.fst := by
        intro b hb
        rw [keys_dictInsert_not_mem acc (key b0) (val b0) hb0acc]
        simp only [List.mem_append, List.mem_singleton]
        push_neg
        refine ⟨hacc b (by simp [hb]), ?_⟩
        intro he
        exact hb0 (he ▸ List.mem_map_of_mem key hb)
      obtain ⟨ihlen, ihfresh, ihmem⟩ :=
        ih (dictInsert acc (key b0) (val b0)) hnd' hacc'
      refine ⟨?_, ?_, ?_⟩
      · simp only [List.foldl_cons, List.length_cons]
        rw [ihlen, length_dictInsert_not_mem acc (key b0) (val b0) hb0acc]
        omega
      · intro k hk
        simp only [List.map_cons, List.mem_cons] at hk
        push_neg at hk
        simp only [List.foldl_cons]
        rw [ihfresh k hk.2, dictGet?_dictInsert_ne acc (key b0) (val b0) k hk.1]
      · intro b hb
        rcases List.mem_cons.mp hb with rfl | hb'
        · simp only [List.foldl_cons]
          rw [ihfresh (key b) hb0, dictGet?_dictInsert_self]
        · simpa only [List.foldl_cons] using ihmem b hb'

/-- The padding loop of `generate_perspectives` reaches exactly the target
length when starting at or below it. -/
theorem padEditors_length (editors : List Editor) (target : Nat)
    (h : editors.length ≤ target) : (padEditors editors target).length = target := by
  by_cases hlt : editors.length < target
  · rw [padEditors, if_pos hlt]
    exact padEditors_length (editors ++ [fallbackEditor editors.length]) target
      (by simp only [List.length_append, List.length_cons, List.length_nil]; omega)
  · rw [padEditors, if_neg hlt]
    omega
termination_by target - editors.length
decreasing_by
  simp only [List.length_append, List.length_cons, List.length_nil]
  omega

/-- C3. For every requested `editor_count` in `[1, 8]`, whenever stage 2
(`generate_perspectives`) completes, the editor list it hands to the research
state has length exactly `editor_count`: a longer parsed list is truncated, a
shorter one is padded with the deterministic fallback personas, and an
unparseable response yields exactly `editor_count` fallback personas. -/
theorem claim3_editor_count_invariant (c : Nat)
    (call : Except String (Option (List Editor))) (editors : List Editor)
    (h1 : 1 ≤ c) (h2 : c ≤ 8)
    (hok : generate_perspectives (some c) call = Except.ok editors) :
    editors.length = c := by
  match call with
  | .error e => simp [generate_perspectives] at hok
  | .ok none =>
      simp only [generate_perspectives, Option.getD_some, Except.ok.injEq] at hok
      subst hok
      simp
  | .ok (some parsed) =>
      simp only [generate_perspectives, Option.getD_some, Except.ok.injEq] at hok
      subst hok
      by_cases hgt : parsed.length > c
      · rw [if_pos hgt]
        simp only [List.length_take]
        omega
      · rw [if_neg hgt]
        exact padEditors_length parsed c (by omega)

/-- Witness for C3 at `editor_count = 5` with an unparseable response. -/
theorem claim3_editor_count_invariant_witness :
    (1 ≤ 5 ∧ 5 ≤ 8 ∧
      generate_perspectives (some 5) (Except.ok none)
        = Except.ok ((List.range 5).map fallbackEditor)) ∧
    ((List.range 5).map fallbackEditor).length = 5 :=
  ⟨⟨by decide, by decide, rfl⟩,
   claim3_editor_count_invariant 5 (Except.ok none) ((List.range 5).map fallbackEditor)
     (by decide) (by decide) rfl⟩

/-- C2 counterexample. The fan-out aggregates results into a dict keyed by
`editor.name`, and the code's own fallback roster for `target_count = 6`
contains `Academic_Researcher` twice (index 0 and index 5). With those six
units and exactly one failing (a strict subset), the aggregated mapping has
5 entries, not `N = 6`. -/
theorem claim2_counterexample :
    (conduct_all_interviews_parallel ((List.range 6).map fallbackEditor)
      (fun e => if e.name = "Industry_Expert" then Except.error "연결 실패" else Except.ok [])
      (fun _ => [])).length ≠ 6 := by decide

/-- C2 as amended: for units with pairwise-distinct editor names, the
aggregated mapping has exactly one entry per unit; every unit's entry is its
own interview result regardless of sibling failures (no failure cancels or
blocks a sibling, and `conduct_single_interview` is total so no exception
escapes); each failing unit's entry is the single-entry failure marker. -/
theorem claim2_fanout_resilience (editors : List Editor)
    (run : Editor → Except String (List Message))
    (search : String → List SearchResult)
    (hnd : (editors.map Editor.name).Nodup) :
    (conduct_all_interviews_parallel editors run search).length = editors.length ∧
    (∀ e ∈ editors,
      dictGet? (conduct_all_interviews_parallel editors run search) e.name
        = some (conduct_single_interview e (run e) search)) ∧
    (∀ e ∈ editors, ∀ err, run e = Except.error err →
      dictGet? (conduct_all_interviews_parallel editors run search) e.name
        = some [interviewFailureEntry e.name]) := by
  obtain ⟨hlen, _, hmem⟩ :=
    foldl_dictInsert_spec Editor.name
      (fun e => conduct_single_interview e (run e) search) editors [] hnd (by simp)
  refine ⟨by simpa [conduct_all_interviews_parallel] using hlen,
          fun e he => by simpa [conduct_all_interviews_parallel] using hmem e he,
          fun e he err herr => ?_⟩
  have := hmem e he
  rw [herr] at this
  simpa [conduct_all_interviews_parallel, conduct_single_interview] using this

/-- Witness for C2 amended: three distinct-name units, the middle one
failing. -/
theorem claim2_fanout_resilience_witness :
    (((List.range 3).map fallbackEditor).map Editor.name).Nodup ∧
    (conduct_all_interviews_parallel ((List.range 3).map fallbackEditor)
        (fun e => if e.name = "Industry_Expert" then Except.error "연결 실패"
                  else Except.ok [])
        (fun _ => [])).length = ((List.range 3).map fallbackEditor).length ∧
    (∀ e ∈ (List.range 3).map fallbackEditor,
      dictGet? (conduct_all_interviews_parallel ((List.range 3).map fallbackEditor)
          (fun e => if e.name = "Industry_Expert" then Except.error "연결 실패"
                    else Except.ok [])
          (fun _ => [])) e.name
        = some (conduct_single_interview e
            (if e.name = "Industry_Expert" then Except.error "연결 실패"
             else Except.ok []) (fun _ => []))) ∧
    (∀ e ∈ (List.range 3).map fallbackEditor, ∀ err,
      (if e.name = "Industry_Expert" then Except.error "연결 실패"
       else Except.ok ([] : List Message)) = Except.error err →
      dictGet? (conduct_all_interviews_parallel ((List.range 3).map fallbackEditor)
          (fun e => if e.name = "Industry_Expert" then Except.error "연결 실패"
                    else Except.ok [])
          (fun _ => [])) e.name
        = some [interviewFailureEntry e.name]) :=
  ⟨by decide,
   claim2_fanout_resilience ((List.range 3).map fallbackEditor)
     (fun e => if e.name = "Industry_Expert" then Except.error "연결 실패"
               else Except.ok [])
     (fun _ => []) (by decide)⟩

/-- C4. `conduct_single_interview` always terminates (it is a total
function of its oracles) and returns a transcript with at most 19 entries:
`MaxMessageTermination(max_messages=19)` caps the chat at 19 of the nominal
`max_turns = 20` messages, each transcript entry corresponds to one chat
message (dialogue turn or injected search-result entry), and a failed
interview contributes a single failure entry. -/
theorem claim4_interview_termination_bound (editor : Editor)
    (run : Except String (List Message)) (search : String → List SearchResult) :
    (conduct_single_interview editor run search).length ≤ 19 := by
  cases run with
  | error e => simp [conduct_single_interview]
  | ok stream =>
      simp only [conduct_single_interview, teamRunCapped, List.length_map,
        List.length_take]
      omega

theorem string_toList_append (a b : String) :
    (a ++ b).toList = a.toList ++ b.toList := by
  cases a
  cases b
  rfl

theorem string_eq_of_toList_eq {a b : String} (h : a.toList = b.toList) : a = b := by
  cases a
  cases b
  exact congrArg String.mk h

/-- Two stale fallbacks for the same title agree only when the descriptions
they embed agree. -/
theorem staleSectionFallback_inj (title : String) (s1 s2 : Section)
    (h : staleSectionFallback title s1 = staleSectionFallback title s2) :
    s1.description = s2.description := by
  unfold staleSectionFallback at h
  have hl := congrArg String.toList h
  simp only [string_toList_append] at hl
  have h1 := List.append_cancel_right hl
  exact string_eq_of_toList_eq (List.append_cancel_left h1)

/-- C10. When the task of a section `sec` fails at the `await` boundary, the
placeholder stored for `sec.section_title` embeds the description of the
*last* section of the outline (the leftover submission-loop variable), not
the description of `sec`; in particular the stored body differs from the
per-section placeholder whenever the two descriptions differ. -/
theorem claim10_stale_section_fallback (outline : Outline)
    (call : Section → Except String String) (awaitFail : Section → Option String)
    (hnd : (outline.sections.map Section.section_title).Nodup)
    (sec : Section) (hmem : sec ∈ outline.sections)
    (hfail : (awaitFail sec).isSome = true) :
    dictGet? (write_sections_parallel outline call awaitFail) sec.section_title
      = some (staleSectionFallback sec.section_title (outline.sections.getLastD sec)) ∧
    ((outline.sections.getLastD sec).description ≠ sec.description →
      dictGet? (write_sections_parallel outline call awaitFail) sec.section_title
        ≠ some (staleSectionFallback sec.section_title sec)) := by
  obtain ⟨e, he⟩ := Option.isSome_iff_exists.mp hfail
  obtain ⟨_, _, hmemv⟩ :=
    foldl_dictInsert_spec Section.section_title
      (sectionTaskResult outline call awaitFail) outline.sections [] hnd (by simp)
  have hval : dictGet? (write_sections_parallel outline call awaitFail) sec.section_title
      = some (staleSectionFallback sec.section_title (outline.sections.getLastD sec)) := by
    have := hmemv sec hmem
    simpa [write_sections_parallel, sectionTaskResult, he] using this
  refine ⟨hval, fun hdesc hcontra => ?_⟩
  rw [hval] at hcontra
  exact hdesc (staleSectionFallback_inj sec.section_title _ _ (Option.some.inj hcontra))

/-- Witness for C10: a two-section outline whose first section's task fails;
the stored placeholder carries the second (last) section's description. -/
theorem claim10_stale_section_fallback_witness :
    (((Outline.mk "주제" [Section.mk "개요" "개요 설명", Section.mk "전망" "전망 설명"]).sections.map
        Section.section_title).Nodup ∧
     Section.mk "개요" "개요 설명"
        ∈ (Outline.mk "주제" [Section.mk "개요" "개요 설명", Section.mk "전망" "전망 설명"]).sections ∧
     ((fun s => if s.section_title = "개요" then some "await 실패" else none)
        (Section.mk "개요" "개요 설명")).isSome = true) ∧
    (dictGet? (write_sections_parallel
        (Outline.mk "주제" [Section.mk "개요" "개요 설명", Section.mk "전망" "전망 설명"])
        (fun _ => Except.ok "본문")
        (fun s => if s.section_title = "개요" then some "await 실패" else none))
        (Section.mk "개요" "개요 설명").section_title
      = some (staleSectionFallback (Section.mk "개요" "개요 설명").section_title
          ((Outline.mk "주제" [Section.mk "개요" "개요 설명", Section.mk "전망" "전망 설명"]).sections.getLastD
            (Section.mk "개요" "개요 설명"))) ∧
     (((Outline.mk "주제" [Section.mk "개요" "개요 설명", Section.mk "전망" "전망 설명"]).sections.getLastD
          (Section.mk "개요" "개요 설명")).description ≠ (Section.mk "개요" "개요 설명").description →
      dictGet? (write_sections_parallel
          (Outline.mk "주제" [Section.mk "개요" "개요 설명", Section.mk "전망" "전망 설명"])
          (fun _ => Except.ok "본문")
          (fun s => if s.section_title = "개요" then some "await 실패" else none))
          (Section.mk "개요" "개요 설명").section_title
        ≠ some (staleSectionFallback (Section.mk "개요" "개요 설명").section_title
            (Section.mk "개요" "개요 설명")))) :=
  ⟨⟨by decide, by decide, by decide⟩,
   claim10_stale_section_fallback
     (Outline.mk "주제" [Section.mk "개요" "개요 설명", Section.mk "전망" "전망 설명"])
     (fun _ => Except.ok "본문")
     (fun s => if s.section_title = "개요" then some "await 실패" else none)
     (by decide) (Section.mk "개요" "개요 설명") (by decide) (by decide)⟩

/-- The await loop reports identities in submission (list) order, with the
completed counter running `completed+1, completed+2, ...` and a constant
total. -/
theorem awaitLoop_spec (total : Nat) :
    ∀ (units : List (String × Nat)) (completed : Nat),
      (awaitLoop total units completed).map ProgressReport.identity
          = units.map Prod.fst ∧
      (awaitLoop total units completed).map ProgressReport.completed
          = List.range' (completed + 1) units.length ∧
      ∀ r ∈ awaitLoop total units completed, r.total = total := by
  intro units
  induction units with
  | nil => exact fun c => ⟨rfl, rfl, by simp [awaitLoop]⟩
  | cons u rest ih =>
      intro c
      obtain ⟨name, time⟩ := u
      obtain ⟨ih1, ih2, ih3⟩ := ih (c + 1)
      refine ⟨by simp [awaitLoop, ih1], ?_, ?_⟩
      · simp only [awaitLoop, List.map_cons, List.length_cons, List.range'_succ, ih2]
      · intro r hr
        rcases List.mem_cons.mp hr with rfl | hr'
        · rfl
        · exact ih3 r hr'

/-- C6 counterexample. A batch of two units where the second submitted unit
completes first (`B` at time 1, `A` at time 5): the coordinator's reports
follow submission order `[A, B]`, not completion order `[B, A]`. -/
theorem claim6_counterexample :
    (fanInReports [("A", 5), ("B", 1)]).map ProgressReport.identity
      ≠ completionOrder [("A", 5), ("B", 1)] := by decide

/-- C6 as amended: after each unit resolves the coordinator reports
`(completed, total)` with the counter running 1..N and constant total, but
the reports are emitted in submission order (the loop awaits the tasks in
the order they were created), not in completion order. -/
theorem claim6_submission_order_reports (units : List (String × Nat)) :
    (fanInReports units).map ProgressReport.identity = units.map Prod.fst ∧
    (fanInReports units).map ProgressReport.completed = List.range' 1 units.length ∧
    ∀ r ∈ fanInReports units, r.total = units.length := by
  simpa [fanInReports] using awaitLoop_spec units.length units 0

/-- C7 counterexample. `StormConfig.editor_count` is unvalidated; with a
requested count of 0 the service path uses 0 (below 1), and the chat route
uses a requested 100 unchanged (above 8). -/
theorem claim7_counterexample :
    service_editor_count (some 0) = 0 ∧ ¬ 1 ≤ service_editor_count (some 0) ∧
    chat_editor_count (some 100) = 100 ∧ ¬ chat_editor_count (some 100) ≤ 8 := by
  decide

/-- C7 as amended: the `StormService` start paths clamp the requested
`editor_count` only from above (`min(editor_count, 8)`), so the used value
never exceeds 8 and is at least 1 only when the request already is; the
chat-route storm branch applies no clamp at all. -/
theorem claim7_editor_count_clamp (cfg : Option Int) :
    service_editor_count cfg ≤ 8 ∧
    (1 ≤ cfg.getD 3 → 1 ≤ service_editor_count cfg) ∧
    (∀ v : Int, chat_editor_count (some v) = v) := by
  unfold service_editor_count chat_editor_count
  exact ⟨min_le_right _ _, fun h => le_min h (by norm_num), fun _ => rfl⟩

/-- Witness for C7 amended at a request of 5. -/
theorem claim7_editor_count_clamp_witness :
    (1 ≤ ((some (5 : Int)).getD 3)) ∧
    (service_editor_count (some 5) ≤ 8 ∧ 1 ≤ service_editor_count (some 5) ∧
     chat_editor_count (some 7) = 7) :=
  ⟨by decide,
   ⟨(claim7_editor_count_clamp (some 5)).1,
    (claim7_editor_count_clamp (some 5)).2.1 (by decide),
    (claim7_editor_count_clamp (some 5)).2.2 7⟩⟩

/-- The polling loop falls through to the auto-approval when no response is
visible at any poll within the window. -/
theorem waitLoop_no_response (responses : Nat → Option HumanResponse) :
    ∀ (fuel t : Nat), (∀ i, i < fuel → responses (t + i) = none) →
      wait_for_storm_interaction_response responses t fuel = timeoutAutoApprove := by
  intro fuel
  induction fuel with
  | zero => intro t _; rfl
  | succ n ih =>
      intro t h
      have h0 : responses t = none := by simpa using h 0 (Nat.succ_pos n)
      rw [wait_for_storm_interaction_response, h0]
      refine ih (t + 1) (fun i hi => ?_)
      have heq : t + 1 + i = t + (i + 1) := by omega
      rw [heq]
      exact h (i + 1) (by omega)

/-- C5. A human-interaction checkpoint whose response never arrives within
the wait window resolves to the automatic approval `{action: "approve"}`;
the wait itself is a total function of the window, so the caller is never
blocked past it. -/
theorem claim5_timeout_auto_approval (responses : Nat → Option HumanResponse)
    (timeout : Nat) (h : ∀ t < timeout, responses t = none) :
    wait_for_storm_interaction_response responses 0 timeout = timeoutAutoApprove ∧
    (wait_for_storm_interaction_response responses 0 timeout).action = "approve" := by
  have hres := waitLoop_no_response responses timeout 0 (fun i hi => by simpa using h i hi)
  exact ⟨hres, by rw [hres]; rfl⟩

/-- Witness for C5 with the default 300-second window and no response. -/
theorem claim5_timeout_auto_approval_witness :
    (∀ t < 300, (fun _ => (none : Option HumanResponse)) t = none) ∧
    (wait_for_storm_interaction_response (fun _ => none) 0 300 = timeoutAutoApprove ∧
     (wait_for_storm_interaction_response (fun _ => none) 0 300).action = "approve") :=
  ⟨fun _ _ => rfl, claim5_timeout_auto_approval (fun _ => none) 300 (fun _ _ => rfl)⟩

/-- C8 counterexample. At the section-review checkpoint a `reject` response
with feedback does not trigger any regeneration: the checkpoint returns the
sections unchanged (`pass` in the source). -/
theorem claim8_counterexample :
    sectionCheckpoint true [("개요", "첫 번째 초안")]
        (Except.ok { action := "reject", feedback := some "다시 작성해주세요" })
      = Except.ok [("개요", "첫 번째 초안")] := rfl

/-- C8 as amended: at the editor-review and outline-review checkpoints a
`reject` response with truthy feedback triggers exactly one regeneration —
the checkpoint result is the result of the single second generation call
(for editors, one without `editor_count`, so a default-3 roster) — while at
the section-review checkpoint every response, `reject` included, leaves the
sections unchanged. -/
theorem claim8_single_regeneration (editors : List Editor) (outline : Outline)
    (sections : List (String × String)) (respE respO respS : HumanResponse)
    (regenE : Except String (Option (List Editor)))
    (regenO : Except String (Option Outline))
    (hE : respE.action = "reject") (hEf : feedbackTruthy respE.feedback = true)
    (hO : respO.action = "reject") (hOf : feedbackTruthy respO.feedback = true) :
    editorCheckpoint true editors (Except.ok respE) regenE
        = generate_perspectives none regenE ∧
    outlineCheckpoint true outline (Except.ok respO) regenO
        = refine_outline outline regenO ∧
    sectionCheckpoint true sections (Except.ok respS) = Except.ok sections := by
  refine ⟨?_, ?_, rfl⟩
  · simp [editorCheckpoint, hE, hEf]
  · simp [outlineCheckpoint, hO, hOf]

/-- Witness for C8 amended with concrete reject-with-feedback responses. -/
theorem claim8_single_regeneration_witness :
    ((HumanResponse.mk "reject" (some "재생성 요청")).action = "reject" ∧
     feedbackTruthy (HumanResponse.mk "reject" (some "재생성 요청")).feedback = true ∧
     (HumanResponse.mk "reject" (some "수정 요청")).action = "reject" ∧
     feedbackTruthy (HumanResponse.mk "reject" (some "수정 요청")).feedback = true) ∧
    (editorCheckpoint true [] (Except.ok (HumanResponse.mk "reject" (some "재생성 요청")))
        (Except.ok none) = generate_perspectives none (Except.ok none) ∧
     outlineCheckpoint true (defaultOutline "주제")
        (Except.ok (HumanResponse.mk "reject" (some "수정 요청"))) (Except.ok none)
        = refine_outline (defaultOutline "주제") (Except.ok none) ∧
     sectionCheckpoint true [("개요", "초안")]
        (Except.ok (HumanResponse.mk "reject" (some "수정 요청")))
        = Except.ok [("개요", "초안")]) :=
  ⟨⟨rfl, by decide, rfl, by decide⟩,
   claim8_single_regeneration [] (defaultOutline "주제") [("개요", "초안")]
     (HumanResponse.mk "reject" (some "재생성 요청"))
     (HumanResponse.mk "reject" (some "수정 요청"))
     (HumanResponse.mk "reject" (some "수정 요청"))
     (Except.ok none) (Except.ok none) rfl (by decide) rfl (by decide)⟩

theorem toList_mk (l : List Char) : (String.mk l).toList = l := rfl

theorem string_ne_empty_of_toList {s : String} (h : s.toList ≠ []) : s ≠ "" := by
  intro he
  exact h (by rw [he]; rfl)

theorem hexChars_ident : ∀ m < 16, isIdentChar (hexChars.getD m '0') = true := by decide

theorem byteHex_ident (b : Nat) : ∀ c ∈ byteHex b, isIdentChar c = true := by
  intro c hc
  simp only [byteHex, List.mem_cons, List.not_mem_nil, or_false] at hc
  rcases hc with rfl | rfl
  · exact hexChars_ident _ (Nat.mod_lt _ (by norm_num))
  · exact hexChars_ident _ (Nat.mod_lt _ (by norm_num))

theorem md5Hex8_ident (msg : List Nat) :
    ∀ c ∈ (md5Hex8 msg).toList, isIdentChar c = true := by
  intro c hc
  rw [md5Hex8, toList_mk] at hc
  have hc2 : c ∈ ((md5Bytes msg).map byteHex).flatten := List.take_subset _ _ hc
  rw [List.mem_flatten] at hc2
  obtain ⟨l, hl, hcl⟩ := hc2
  rw [List.mem_map] at hl
  obtain ⟨b, _, rfl⟩ := hl
  exact byteHex_ident b c hcl

/-- When every character of a non-empty string is in the kept class, the
sanitizer returns it unchanged. -/
theorem sanitize_name_of_all_ident (s : String) (hne : s.toList ≠ [])
    (hall : ∀ c ∈ s.toList, isIdentChar c = true) : sanitize_name s = s := by
  have hmk : String.mk s.toList = s := by cases s; rfl
  simp only [sanitize_name, List.filter_eq_self.mpr hall, hmk]
  rw [if_neg (string_ne_empty_of_toList hne)]

/-- The fallback branch of the sanitizer. -/
theorem sanitize_name_fallback (x : String)
    (hfil : x.toList.filter isIdentChar = []) :
    sanitize_name x = "editor_" ++ md5Hex8 (utf8Encode x) := by
  have hfil' : List.filter isIdentChar x.data = [] := hfil
  simp [sanitize_name, String.toList, hfil']

/-- Every character of the fallback identifier is in the kept class. -/
theorem fallback_all_ident (x : String) :
    ∀ c ∈ ("editor_" ++ md5Hex8 (utf8Encode x)).toList, isIdentChar c = true := by
  intro c hc
  rw [string_toList_append] at hc
  rcases List.mem_append.mp hc with h1 | h2
  · exact (by decide : ∀ c ∈ "editor_".toList, isIdentChar c = true) c h1
  · exact md5Hex8_ident (utf8Encode x) c h2

theorem fallback_toList_ne (x : String) :
    ("editor_" ++ md5Hex8 (utf8Encode x)).toList ≠ [] := by
  rw [string_toList_append]
  intro h
  exact absurd (List.append_eq_nil.mp h).1 (by decide)

/-- When some character survives the filter, the sanitizer returns exactly
the filtered string. -/
theorem sanitize_name_of_filter_ne (x : String)
    (hfil : x.toList.filter isIdentChar ≠ []) :
    sanitize_name x = String.mk (x.toList.filter isIdentChar) := by
  simp only [sanitize_name]
  rw [if_neg (string_ne_empty_of_toList (by rw [toList_mk]; exact hfil))]

/-- C9. The editor-name sanitizer is idempotent, and on an input with no
ASCII-identifier character it returns the non-empty fallback identifier
derived from the MD5 hash of the UTF-8 encoded input (a pure function, so
the same input always yields the same output). -/
theorem claim9_sanitize_idempotent :
    (∀ x, sanitize_name (sanitize_name x) = sanitize_name x) ∧
    (∀ x, x.toList.filter isIdentChar = [] →
      sanitize_name x = "editor_" ++ md5Hex8 (utf8Encode x) ∧ sanitize_name x ≠ "") := by
  constructor
  · intro x
    by_cases hfil : x.toList.filter isIdentChar = []
    · rw [sanitize_name_fallback x hfil]
      exact sanitize_name_of_all_ident _ (fallback_toList_ne x) (fallback_all_ident x)
    · rw [sanitize_name_of_filter_ne x hfil]
      refine sanitize_name_of_all_ident _ (by rw [toList_mk]; exact hfil) ?_
      intro c hc
      rw [toList_mk] at hc
      exact (List.mem_filter.mp hc).2
  · intro x hfil
    refine ⟨sanitize_name_fallback x hfil, ?_⟩
    rw [sanitize_name_fallback x hfil]
    exact string_ne_empty_of_toList (fallback_toList_ne x)

/-- Witness for C9 at the all-Korean name `한글`:
`sanitize_name "한글" = "editor_52b8c54a"` (the real MD5 prefix). -/
theorem claim9_sanitize_idempotent_witness :
    ("한글".toList.filter isIdentChar = []) ∧
    (sanitize_name "한글" = "editor_" ++ md5Hex8 (utf8Encode "한글") ∧
     sanitize_name "한글" ≠ "") :=
  ⟨by decide, claim9_sanitize_idempotent.2 "한글" (by decide)⟩

/-- Terminal-event accounting for the bare generator: the events yielded
before a raise contain no terminal event, and a completed run's events
contain exactly one, the final `storm_complete`. -/
theorem run_events_terminal (topic : String) (hl : Bool) (ec : Option Nat)
    (o : RunOracles) :
    ((run_parallel_storm_research topic hl ec o).raised ≠ none →
      (run_parallel_storm_research topic hl ec o).events.countP isTerminal = 0) ∧
    ((run_parallel_storm_research topic hl ec o).raised = none →
      (run_parallel_storm_research topic hl ec o).events.countP isTerminal = 1 ∧
      ∃ c, (run_parallel_storm_research topic hl ec o).events.getLast?
          = some (StormEvent.storm_complete c)) := by
  unfold run_parallel_storm_research
  rcases generate_initial_outline topic o.outlineCall with e1 | o1
  · exact ⟨fun _ => by simp [List.countP_cons, isTerminal], fun h => by simp at h⟩
  · dsimp only
    rcases generate_perspectives ec o.perspectivesCall with e2 | eds
    · exact ⟨fun _ => by simp [List.countP_append, List.countP_cons, isTerminal],
             fun h => by simp at h⟩
    · dsimp only
      rcases editorCheckpoint hl eds o.editorGate o.editorRegenCall with e3 | eds2
      · exact ⟨fun _ => by simp [List.countP_append, List.countP_cons, isTerminal],
               fun h => by simp at h⟩
      · dsimp only
        rcases refine_outline o1 o.refineCall with e4 | ro
        · exact ⟨fun _ => by simp [List.countP_append, List.countP_cons, isTerminal],
                 fun h => by simp at h⟩
        · dsimp only
          rcases outlineCheckpoint hl ro o.outlineGate o.outlineRegenCall with e5 | o5
          · exact ⟨fun _ => by simp [List.countP_append, List.countP_cons, isTerminal],
                   fun h => by simp at h⟩
          · dsimp only
            rcases sectionCheckpoint hl
                (write_sections_parallel o5 o.sectionCall o.sectionAwaitFail)
                o.sectionGate with e6 | secs
            · exact ⟨fun _ => by simp [List.countP_append, List.countP_cons, isTerminal],
                     fun h => by simp at h⟩
            · dsimp only
              refine ⟨fun h => absurd rfl h, fun _ => ⟨?_, ?_⟩⟩
              · simp [List.countP_append, List.countP_cons, isTerminal]
              · refine ⟨write_final_article topic o5 secs o.finalCall, ?_⟩
                simp [List.getLast?_append]

/-- C1 counterexample. With the stage-1 model call raising, the bare
generator `run_parallel_storm_research` ends its stream (re-raising to the
consumer) after two `log` events and no terminal event at all — the claim's
"exactly one terminal event" fails for the generator itself. -/
theorem claim1_counterexample :
    (run_parallel_storm_research "원격 근무 생산성" false none
        outlineFailureOracles).events.countP isTerminal = 0 ∧
    (run_parallel_storm_research "원격 근무 생산성" false none
        outlineFailureOracles).raised = some "모델 호출 실패" := by decide

/-- C1 as amended: the stream observed through the service wrapper
`process_storm_interactive` — which forwards the generator's events and
converts a raise into one trailing `storm_error` — always contains exactly
one terminal event (`storm_complete` or `storm_error`), and that terminal
event is the last event of the stream. -/
theorem claim1_terminal_event_invariant (topic : String) (ec : Option Nat)
    (o : RunOracles) :
    (process_storm_interactive topic ec o).countP isTerminal = 1 ∧
    ∃ ev, (process_storm_interactive topic ec o).getLast? = some ev ∧
      isTerminal ev = true := by
  obtain ⟨h0, h1⟩ := run_events_terminal topic true ec o
  rcases hr : (run_parallel_storm_research topic true ec o).raised with _ | e
  · obtain ⟨hc, c, hlast⟩ := h1 hr
    simp only [process_storm_interactive, hr]
    exact ⟨hc, StormEvent.storm_complete c, hlast, rfl⟩
  · have hc := h0 (by rw [hr]; exact Option.some_ne_none e)
    simp only [process_storm_interactive, hr]
    constructor
    · simp [List.countP_append, hc, List.countP_cons, isTerminal]
    · exact ⟨StormEvent.storm_error ("❌ STORM 연구 스트림 오류: " ++ e),
        by simp [List.getLast?_concat], rfl⟩

end Storm

